import Mathlib

/-!
Verification development for the hospital revenue dashboard
(`streamlit_app.py`).  The script loads a CSV into a pandas
dataframe, derives a parsed date column (`date_clean`) and a numeric
revenue column (`revenue`), lets the user filter by year (`nam`) and
service group (`tennhomdichvu`), and renders charts.

We shallowly embed the dataframe as a header (list of column names)
together with a list of rows (lists of cells), and the script's
top-to-bottom render pass as a pure function into an `Outcome` type
whose constructors record the user-visible result of that pass
(welcome page, error + stop, warning + stop, unhandled exception,
or a rendered dashboard over the filtered table).
-/

namespace HospitalDashboard

/-- A dataframe cell: a number (pandas int/float scalars, restricted to
integers, which is all the dashboard's logic compares), a string, a
parsed date (the result of `pd.to_datetime`), or a missing value
(NaN/NaT/None). -/
inductive Cell where
  | num (n : Int)
  | str (s : String)
  | date (y m d : Nat)
  | null
deriving DecidableEq, Repr

/-- A pandas dataframe: column names plus rows.  Well-formed frames
(`Wf`) have every row of the same length as the header. -/
structure DF where
  header : List String
  rows : List (List Cell)
deriving DecidableEq, Repr

/-- Every row has exactly one cell per column. -/
def Wf (df : DF) : Prop := ∀ r ∈ df.rows, r.length = df.header.length

instance (df : DF) : Decidable (Wf df) := by
  unfold Wf; infer_instance

/-- Index of the first column with the given name (pandas column lookup). -/
def idx? (l : List String) (c : String) : Option Nat :=
  match l with
  | [] => none
  | a :: as => if a = c then some 0 else (idx? as c).map (· + 1)

/-- The cell of row `r` in column `c` (missing column or short row reads
as a missing value; the scripts only read columns they checked for). -/
def getCell (header : List String) (r : List Cell) (c : String) : Cell :=
  match idx? header c with
  | some i => r.getD i Cell.null
  | none => Cell.null

/-- The column `c` of the frame as a list of cells (`df[c]`). -/
def DF.col (df : DF) (c : String) : List Cell :=
  match idx? df.header c with
  | some i => df.rows.map (fun r => r.getD i Cell.null)
  | none => []

/-- Column assignment `df[name] = vals`: overwrites the column if the
name exists, otherwise appends a new column on the right. -/
def setCol (df : DF) (name : String) (vals : List Cell) : DF :=
  match idx? df.header name with
  | some i => { header := df.header, rows := (df.rows.zip vals).map (fun p => p.1.set i p.2) }
  | none => { header := df.header ++ [name], rows := (df.rows.zip vals).map (fun p => p.1 ++ [p.2]) }

/-! ### Data Cleaner: `process_data` -/

/-- Numeric value of a digit string (most significant digit first). -/
def digitsToNat (l : List Char) : Nat :=
  l.foldl (fun a c => 10 * a + (c.toNat - ('0').toNat)) 0

/-- `str.replace(',', '').str.replace(' ', '')`: drop every comma and
space from the raw revenue text. -/
def stripSeps (s : List Char) : List Char :=
  s.filter (fun c => !(c == ',' || c == ' '))

/-- Model of `pd.to_numeric(·, errors='coerce')` on the integer-valued
strings this dataset carries: an optional leading minus sign followed by
decimal digits parses to the corresponding integer, anything else
(including the string "nan" that `astype(str)` produces for missing
values) coerces to a missing value. -/
def toNumeric? (s : List Char) : Option Int :=
  if s = [] then none
  else if s.headD ' ' = '-' then
    (if s.tail ≠ [] ∧ (s.tail).all Char.isDigit
     then some (-(digitsToNat s.tail : Int)) else none)
  else if s.all Char.isDigit then some ((digitsToNat s : Int)) else none

/-- `astype(str)` on one cell: numbers print as decimal numerals,
strings are unchanged, missing values print as "nan", parsed dates
print as an ISO-like rendering. -/
def cellToStr : Cell → String
  | Cell.num n => toString n
  | Cell.str s => s
  | Cell.date y m d => toString y ++ "-" ++ toString m ++ "-" ++ toString d
  | Cell.null => "nan"

/-- The whole revenue coercion of one raw cell: stringify, strip
separators, convert to a number. -/
def parseRevenue (c : Cell) : Option Int :=
  toNumeric? (stripSeps (cellToStr c).data)

/-- The `revenue` cell derived from one raw `tongdoanhthu` cell. -/
def revenueCell (c : Cell) : Cell :=
  match parseRevenue c with
  | some n => Cell.num n
  | none => Cell.null

/-- Model of `pd.to_datetime(·, errors='coerce')` on one raw string:
accepts `Y-M-D` with numeric fields and plausible month/day ranges,
everything else coerces to a missing value. -/
def parseDate (s : String) : Option (Nat × Nat × Nat) :=
  match s.splitOn "-" with
  | [ys, ms, ds] =>
      match ys.toNat?, ms.toNat?, ds.toNat? with
      | some y, some m, some d =>
          if 1 ≤ m ∧ m ≤ 12 ∧ 1 ≤ d ∧ d ≤ 31 then some (y, m, d) else none
      | _, _, _ => none
  | _ => none

/-- Date coercion of one cell: only raw strings can parse; missing and
non-string cells coerce to a missing value. -/
def toDatetime? (c : Cell) : Option (Nat × Nat × Nat) :=
  match c with
  | Cell.str s => parseDate s
  | _ => none

/-- The `date_clean` cell derived from one raw `ngay_tiep_nhan` cell. -/
def dateCleanCell (c : Cell) : Cell :=
  match toDatetime? c with
  | some (y, m, d) => Cell.date y m d
  | none => Cell.null

/-- Lines 59-60: `df['date_clean'] = pd.to_datetime(df['ngay_tiep_nhan'],
errors='coerce')`, guarded by the column's presence. -/
def addDateClean (df : DF) : DF :=
  if "ngay_tiep_nhan" ∈ df.header
  then setCol df "date_clean" ((df.col "ngay_tiep_nhan").map dateCleanCell)
  else df

/-- Lines 62-67: `df['revenue'] = pd.to_numeric(...)`, guarded by the
column's presence (tested on the frame already holding `date_clean`,
mirroring the in-place mutation in the script). -/
def addRevenue (df : DF) : DF :=
  if "tongdoanhthu" ∈ df.header
  then setCol df "revenue" ((df.col "tongdoanhthu").map revenueCell)
  else df

/-- `process_data`: on a non-empty frame, derive `date_clean` from
`ngay_tiep_nhan` when that column exists and `revenue` from
`tongdoanhthu` when that column exists; an empty frame is returned
unchanged. -/
def process_data (df : DF) : DF :=
  if df.rows = [] ∨ df.header = [] then df
  else addRevenue (addDateClean df)

/-! ### Data Loader: `load_data` -/

/-- A CSV source as the loader sees it: either it parses to a frame or
reading it raises. -/
inductive CsvSrc where
  | ok (df : DF)
  | bad
deriving DecidableEq, Repr

/-- The sidebar messages the loader can emit. -/
inductive Msg where
  | uploadSuccess
  | uploadError
  | localInfo
  | localMissingWarning
  | localError
deriving DecidableEq, Repr

/-- Messages that report a failure (st.sidebar.error / st.sidebar.warning). -/
def Msg.isFailure : Msg → Bool
  | Msg.uploadError => true
  | Msg.localMissingWarning => true
  | Msg.localError => true
  | _ => false

/-- What a call to `load_data` produces: the returned frame plus the
sidebar messages shown on the way. -/
structure LoadResult where
  df : DF
  msgs : List Msg
deriving DecidableEq, Repr

/-- `pd.DataFrame()`: the empty frame returned on every failure path. -/
def emptyDF : DF := { header := [], rows := [] }

/-- `load_data`: prefer the uploaded file; fall back to the local
`unique_data.csv` (`none` models a missing local file); every failure is
reported and degrades to the empty frame. -/
def load_data (uploaded : Option CsvSrc) (localFile : Option CsvSrc) : LoadResult :=
  match uploaded with
  | some (CsvSrc.ok d) => { df := process_data d, msgs := [Msg.uploadSuccess] }
  | some CsvSrc.bad => { df := emptyDF, msgs := [Msg.uploadError] }
  | none =>
      match localFile with
      | some (CsvSrc.ok d) => { df := process_data d, msgs := [Msg.localInfo] }
      | none => { df := emptyDF, msgs := [Msg.localMissingWarning] }
      | some CsvSrc.bad => { df := emptyDF, msgs := [Msg.localError] }

/-! ### Filter Stage and render pass -/

/-- Elementwise equality as pandas `==` computes it for the filters:
missing values compare unequal to everything (NaN semantics), values of
different kinds compare unequal. -/
def cellEq : Cell → Cell → Bool
  | Cell.null, _ => false
  | _, Cell.null => false
  | Cell.num a, Cell.num b => a == b
  | Cell.str a, Cell.str b => a == b
  | Cell.date y m d, Cell.date y2 m2 d2 => y == y2 && m == m2 && d == d2
  | _, _ => false

/-- Lexicographic `≤` on character lists (Python string ordering). -/
def strLe : List Char → List Char → Bool
  | [], _ => true
  | _ :: _, [] => false
  | c :: cs, d :: ds => if c = d then strLe cs ds else decide (c < d)

/-- A total comparison on cells, used to model Python's `sorted` on the
homogeneous value lists the filters build. -/
def cellLe : Cell → Cell → Bool
  | Cell.null, _ => true
  | _, Cell.null => false
  | Cell.num a, Cell.num b => decide (a ≤ b)
  | Cell.num _, Cell.str _ => true
  | Cell.str _, Cell.num _ => false
  | Cell.str a, Cell.str b => strLe a.data b.data
  | Cell.date _ _ _, _ => true
  | _, Cell.date _ _ _ => false

/-- Insert a cell into a `cellLe`-sorted list. -/
def insertCell (c : Cell) : List Cell → List Cell
  | [] => [c]
  | d :: ds => if cellLe c d then c :: d :: ds else d :: insertCell c ds

/-- `sorted(...)` as insertion sort over `cellLe`. -/
def sortCells : List Cell → List Cell
  | [] => []
  | c :: cs => insertCell c (sortCells cs)

/-- `.unique()`: first occurrence of each value, in encounter order. -/
def uniqueCells (l : List Cell) : List Cell :=
  l.foldl (fun acc c => if c ∈ acc then acc else acc ++ [c]) []

/-- `sorted(df['nam'].dropna().unique())`: the year selectbox options. -/
def yearList (df : DF) : List Cell :=
  sortCells (uniqueCells ((df.col "nam").filter (fun c => !(c == Cell.null))))

/-- The year the selectbox hands back: some element of `yearList`
chosen by the user (an out-of-range pick clamps to the default, the
last entry). -/
def selectedYear (df : DF) (p : Nat) : Cell :=
  (yearList df).getD (min p ((yearList df).length - 1)) Cell.null

/-- `["Tất cả"] + sorted(df['tennhomdichvu'].dropna().unique())`: the
service-group selectbox options. -/
def serviceGroups (df : DF) : List Cell :=
  Cell.str "Tất cả" ::
    sortCells (uniqueCells ((df.col "tennhomdichvu").filter (fun c => !(c == Cell.null))))

/-- The service-group value the selectbox hands back. -/
def selectedService (df : DF) (p : Nat) : Cell :=
  (serviceGroups df).getD (min p ((serviceGroups df).length - 1)) (Cell.str "Tất cả")

/-- The Filter Stage (lines 228-231): keep the rows whose `nam` cell
equals the selected year, then, when the selected service is not the
"Tất cả" sentinel and the `tennhomdichvu` column exists, keep the rows
whose `tennhomdichvu` cell equals the selected service. -/
def filterStage (df : DF) (year svc : Cell) : DF :=
  let d1 : DF := { header := df.header,
                   rows := df.rows.filter (fun r => cellEq (getCell df.header r "nam") year) }
  if svc ≠ Cell.str "Tất cả" ∧ "tennhomdichvu" ∈ df.header then
    { header := d1.header,
      rows := d1.rows.filter (fun r => cellEq (getCell d1.header r "tennhomdichvu") svc) }
  else d1

/-- The year filter alone, with no service-group filter applied at all
(stated from the spec, for comparison with `filterStage`). -/
def yearOnlyFilter (df : DF) (year : Cell) : DF :=
  { header := df.header,
    rows := df.rows.filter (fun r => cellEq (getCell df.header r "nam") year) }

/-- The user-visible result of one render pass over the loaded frame. -/
inductive Outcome where
  /-- Empty frame: landing page, `st.stop()`. -/
  | welcome
  /-- `st.error` for a missing `nam` column, then `st.stop()`. -/
  | missingNamError
  /-- `st.error` "Không có dữ liệu năm nào", then `st.stop()`. -/
  | noYearsError
  /-- Unhandled `NameError`: `selected_service` was never assigned
  because `tennhomdichvu` is absent, yet line 230 reads it. -/
  | nameErrorCrash
  /-- `st.warning` for an empty filtered frame, then `st.stop()`. -/
  | emptyWarning
  /-- The dashboard is rendered over the filtered frame. -/
  | rendered (dff : DF)
deriving DecidableEq, Repr

/-- The script's render pass after loading, as a function of the frame
and the user's selectbox picks (lines 112-236): welcome page on an
empty frame; error-stop when `nam` is absent; error-stop when no year
survives `dropna`; an unhandled `NameError` when `tennhomdichvu` is
absent (line 230 reads `selected_service`, which line 217's guard never
assigned); warning-stop on an empty filter result; otherwise the
dashboard renders the filtered frame. -/
def renderPass (df : DF) (yp sp : Nat) : Outcome :=
  if df.rows = [] ∨ df.header = [] then Outcome.welcome
  else if "nam" ∉ df.header then Outcome.missingNamError
  else if yearList df = [] then Outcome.noYearsError
  else if "tennhomdichvu" ∉ df.header then Outcome.nameErrorCrash
  else if (filterStage df (selectedYear df yp) (selectedService df sp)).rows = [] then
    Outcome.emptyWarning
  else Outcome.rendered (filterStage df (selectedYear df yp) (selectedService df sp))

/-! ### Column-index lemmas -/

theorem idx?_eq_none {l : List String} {c : String} : idx? l c = none ↔ c ∉ l := by
  induction l with
  | nil => simp [idx?]
  | cons a as ih =>
    by_cases h : a = c
    · simp [idx?, h]
    · simp [idx?, h, Option.map_eq_none', ih, Ne.symm h]

theorem idx?_mem {l : List String} {c : String} {i : Nat} (h : idx? l c = some i) : c ∈ l := by
  by_contra hc
  rw [idx?_eq_none.mpr hc] at h
  cases h

theorem idx?_lt {l : List String} {c : String} {i : Nat} (h : idx? l c = some i) :
    i < l.length := by
  induction l generalizing i with
  | nil => simp [idx?] at h
  | cons a as ih =>
    by_cases hac : a = c
    · rw [idx?, if_pos hac] at h
      cases h
      simp
    · rw [idx?, if_neg hac] at h
      obtain ⟨k, hk, rfl⟩ := Option.map_eq_some'.mp h
      simpa using Nat.succ_lt_succ (ih hk)

theorem idx?_getD {l : List String} {c : String} {i : Nat} (h : idx? l c = some i) :
    l.getD i "" = c := by
  induction l generalizing i with
  | nil => simp [idx?] at h
  | cons a as ih =>
    by_cases hac : a = c
    · rw [idx?, if_pos hac] at h
      cases h
      simpa using hac
    · rw [idx?, if_neg hac] at h
      obtain ⟨k, hk, rfl⟩ := Option.map_eq_some'.mp h
      simpa using ih hk

theorem idx?_append_some {l l2 : List String} {c : String} {i : Nat}
    (h : idx? l c = some i) : idx? (l ++ l2) c = some i := by
  induction l generalizing i with
  | nil => simp [idx?] at h
  | cons a as ih =>
    by_cases hac : a = c
    · rw [idx?, if_pos hac] at h
      cases h
      simp [idx?, hac]
    · rw [idx?, if_neg hac] at h
      obtain ⟨k, hk, rfl⟩ := Option.map_eq_some'.mp h
      simp [idx?, hac, ih hk]

theorem idx?_append_self {l : List String} {c : String} (h : c ∉ l) :
    idx? (l ++ [c]) c = some l.length := by
  induction l with
  | nil => simp [idx?]
  | cons a as ih =>
    have hac : a ≠ c := by
      rintro rfl
      exact h (List.mem_cons_self a as)
    have h2 : c ∉ as := fun hm => h (List.mem_cons_of_mem _ hm)
    simp [idx?, hac, ih h2]

theorem idx?_append_none {l : List String} {c n : String} (h : c ∉ l) (hcn : c ≠ n) :
    idx? (l ++ [n]) c = none := by
  induction l with
  | nil => simp [idx?, Ne.symm hcn]
  | cons a as ih =>
    have hac : a ≠ c := by
      rintro rfl
      exact h (List.mem_cons_self a as)
    have h2 : c ∉ as := fun hm => h (List.mem_cons_of_mem _ hm)
    simp [idx?, hac, ih h2]

/-! ### getD lemmas -/

theorem getD_append_lt {α : Type} (r r2 : List α) (i : Nat) (d : α) (h : i < r.length) :
    (r ++ r2).getD i d = r.getD i d := by
  induction r generalizing i with
  | nil => simp at h
  | cons a as ih =>
    cases i with
    | zero => simp
    | succ k => simpa using ih k (by simpa using h)

theorem getD_append_len {α : Type} (r : List α) (v d : α) :
    (r ++ [v]).getD r.length d = v := by
  induction r with
  | nil => simp
  | cons a as ih => simp [ih]

theorem getD_set_ne {α : Type} (r : List α) (i j : Nat) (v d : α) (h : i ≠ j) :
    (r.set i v).getD j d = r.getD j d := by
  induction r generalizing i j with
  | nil => simp
  | cons a as ih =>
    cases i with
    | zero =>
      cases j with
      | zero => exact absurd rfl h
      | succ k => simp
    | succ m =>
      cases j with
      | zero => simp
      | succ k => simpa using ih m k (by omega)

theorem getD_set_self {α : Type} (r : List α) (i : Nat) (v d : α) (h : i < r.length) :
    (r.set i v).getD i d = v := by
  induction r generalizing i with
  | nil => simp at h
  | cons a as ih =>
    cases i with
    | zero => simp
    | succ k => simpa using ih k (by simpa using h)

theorem getD_map_lt {α β : Type} (f : α → β) (l : List α) (i : Nat) (d : α) (e : β)
    (h : i < l.length) : (l.map f).getD i e = f (l.getD i d) := by
  induction l generalizing i with
  | nil => simp at h
  | cons a as ih =>
    cases i with
    | zero => simp
    | succ k => simpa using ih k (by simpa using h)

/-! ### zip-with-new-column lemmas -/

theorem zip_append_map_getD {α : Type} (d : α) (i : Nat) (rows : List (List α)) :
    ∀ vals : List α, vals.length = rows.length → (∀ r ∈ rows, i < r.length) →
      ((rows.zip vals).map (fun p => p.1 ++ [p.2])).map (fun r => r.getD i d)
        = rows.map (fun r => r.getD i d) := by
  induction rows with
  | nil =>
    intro vals _ _
    simp
  | cons r rs ih =>
    intro vals h hi
    cases vals with
    | nil => simp at h
    | cons v vs =>
      simp only [List.zip_cons_cons, List.map_cons]
      rw [getD_append_lt r [v] i d (hi r (List.mem_cons_self r rs)),
        ih vs (by simpa using h) (fun r2 hr2 => hi r2 (List.mem_cons_of_mem _ hr2))]

theorem zip_append_map_last {α : Type} (d : α) (n : Nat) (rows : List (List α)) :
    ∀ vals : List α, vals.length = rows.length → (∀ r ∈ rows, r.length = n) →
      ((rows.zip vals).map (fun p => p.1 ++ [p.2])).map (fun r => r.getD n d) = vals := by
  induction rows with
  | nil =>
    intro vals h _
    cases vals with
    | nil => simp
    | cons v vs => simp at h
  | cons r rs ih =>
    intro vals h hn
    cases vals with
    | nil => simp at h
    | cons v vs =>
      simp only [List.zip_cons_cons, List.map_cons]
      have h1 : (r ++ [v]).getD n d = v := by
        rw [← hn r (List.mem_cons_self r rs)]
        exact getD_append_len r v d
      rw [h1, ih vs (by simpa using h) (fun r2 hr2 => hn r2 (List.mem_cons_of_mem _ hr2))]

theorem zip_set_map_getD {α : Type} (d : α) (i j : Nat) (hij : j ≠ i) (rows : List (List α)) :
    ∀ vals : List α, vals.length = rows.length →
      ((rows.zip vals).map (fun p => p.1.set j p.2)).map (fun r => r.getD i d)
        = rows.map (fun r => r.getD i d) := by
  induction rows with
  | nil =>
    intro vals _
    simp
  | cons r rs ih =>
    intro vals h
    cases vals with
    | nil => simp at h
    | cons v vs =>
      simp only [List.zip_cons_cons, List.map_cons]
      rw [getD_set_ne r j i v d hij, ih vs (by simpa using h)]

theorem zip_set_map_self {α : Type} (d : α) (j : Nat) (rows : List (List α)) :
    ∀ vals : List α, vals.length = rows.length → (∀ r ∈ rows, j < r.length) →
      ((rows.zip vals).map (fun p => p.1.set j p.2)).map (fun r => r.getD j d) = vals := by
  induction rows with
  | nil =>
    intro vals h _
    cases vals with
    | nil => simp
    | cons v vs => simp at h
  | cons r rs ih =>
    intro vals h hj
    cases vals with
    | nil => simp at h
    | cons v vs =>
      simp only [List.zip_cons_cons, List.map_cons]
      rw [getD_set_self r j v d (hj r (List.mem_cons_self r rs)),
        ih vs (by simpa using h) (fun r2 hr2 => hj r2 (List.mem_cons_of_mem _ hr2))]

/-! ### Frame-operation lemmas -/

theorem col_eq_of_idx {df : DF} {c : String} {i : Nat} (hi : idx? df.header c = some i) :
    df.col c = df.rows.map (fun r => r.getD i Cell.null) := by
  unfold DF.col
  rw [hi]

theorem col_eq_nil {df : DF} {c : String} (hi : idx? df.header c = none) : df.col c = [] := by
  unfold DF.col
  rw [hi]

theorem getCell_eq {header : List String} {r : List Cell} {c : String} {i : Nat}
    (hi : idx? header c = some i) : getCell header r c = r.getD i Cell.null := by
  unfold getCell
  rw [hi]

theorem idx?_isSome_of_mem {l : List String} {c : String} (h : c ∈ l) :
    ∃ i, idx? l c = some i := by
  cases hi : idx? l c with
  | none => exact absurd h (idx?_eq_none.mp hi)
  | some i => exact ⟨i, rfl⟩

theorem col_length {df : DF} {c : String} (h : c ∈ df.header) :
    (df.col c).length = df.rows.length := by
  obtain ⟨i, hi⟩ := idx?_isSome_of_mem h
  rw [col_eq_of_idx hi, List.length_map]

theorem setCol_eq_replace {df : DF} {name : String} {vals : List Cell} {i : Nat}
    (hi : idx? df.header name = some i) :
    setCol df name vals
      = { header := df.header, rows := (df.rows.zip vals).map (fun p => p.1.set i p.2) } := by
  unfold setCol
  rw [hi]

theorem setCol_eq_append {df : DF} {name : String} {vals : List Cell}
    (hi : idx? df.header name = none) :
    setCol df name vals
      = { header := df.header ++ [name],
          rows := (df.rows.zip vals).map (fun p => p.1 ++ [p.2]) } := by
  unfold setCol
  rw [hi]

theorem setCol_header (df : DF) (name : String) (vals : List Cell) :
    (setCol df name vals).header
      = if name ∈ df.header then df.header else df.header ++ [name] := by
  cases hi : idx? df.header name with
  | none => rw [setCol_eq_append hi, if_neg (idx?_eq_none.mp hi)]
  | some i => rw [setCol_eq_replace hi, if_pos (idx?_mem hi)]

theorem mem_setCol_header {df : DF} {name c : String} {vals : List Cell} :
    c ∈ (setCol df name vals).header ↔ c ∈ df.header ∨ c = name := by
  rw [setCol_header]
  by_cases hm : name ∈ df.header
  · rw [if_pos hm]
    constructor
    · exact Or.inl
    · rintro (h | rfl)
      · exact h
      · exact hm
  · rw [if_neg hm]
    simp

theorem setCol_rows_length {df : DF} {name : String} {vals : List Cell}
    (h : vals.length = df.rows.length) :
    (setCol df name vals).rows.length = df.rows.length := by
  cases hi : idx? df.header name with
  | none => simp [setCol_eq_append hi, List.length_zip, h]
  | some i => simp [setCol_eq_replace hi, List.length_zip, h]

theorem setCol_wf {df : DF} {name : String} {vals : List Cell}
    (hwf : Wf df) : Wf (setCol df name vals) := by
  cases hi : idx? df.header name with
  | none =>
    rw [setCol_eq_append hi]
    intro r hr
    obtain ⟨p, hp, rfl⟩ := List.mem_map.mp hr
    obtain ⟨r0, v⟩ := p
    have hz := List.of_mem_zip hp
    simp [hwf r0 hz.1]
  | some i =>
    rw [setCol_eq_replace hi]
    intro r hr
    obtain ⟨p, hp, rfl⟩ := List.mem_map.mp hr
    obtain ⟨r0, v⟩ := p
    have hz := List.of_mem_zip hp
    simp [hwf r0 hz.1]

theorem setCol_col_self {df : DF} {name : String} {vals : List Cell}
    (hwf : Wf df) (h : vals.length = df.rows.length) :
    (setCol df name vals).col name = vals := by
  cases hi : idx? df.header name with
  | none =>
    rw [setCol_eq_append hi]
    have hnm := idx?_eq_none.mp hi
    rw [col_eq_of_idx (idx?_append_self hnm)]
    exact zip_append_map_last Cell.null df.header.length df.rows vals h hwf
  | some i =>
    rw [setCol_eq_replace hi]
    have hcol : (DF.mk df.header ((df.rows.zip vals).map (fun p => p.1.set i p.2))).col name
        = ((df.rows.zip vals).map (fun p => p.1.set i p.2)).map
            (fun r => r.getD i Cell.null) :=
      col_eq_of_idx hi
    rw [hcol]
    exact zip_set_map_self Cell.null i df.rows vals h
      (fun r hr => by rw [hwf r hr]; exact idx?_lt hi)

theorem setCol_col_ne {df : DF} {name c : String} {vals : List Cell}
    (hne : c ≠ name) (hwf : Wf df) (h : vals.length = df.rows.length) :
    (setCol df name vals).col c = df.col c := by
  cases hi : idx? df.header name with
  | none =>
    rw [setCol_eq_append hi]
    cases hc : idx? df.header c with
    | none =>
      rw [col_eq_nil (idx?_append_none (idx?_eq_none.mp hc) hne), col_eq_nil hc]
    | some j =>
      rw [col_eq_of_idx (idx?_append_some hc), col_eq_of_idx hc]
      exact zip_append_map_getD Cell.null j df.rows vals h
        (fun r hr => by rw [hwf r hr]; exact idx?_lt hc)
  | some i =>
    rw [setCol_eq_replace hi]
    cases hc : idx? df.header c with
    | none =>
      have h1 : (DF.mk df.header ((df.rows.zip vals).map (fun p => p.1.set i p.2))).col c
          = [] := col_eq_nil hc
      rw [h1, col_eq_nil hc]
    | some j =>
      have h1 : (DF.mk df.header ((df.rows.zip vals).map (fun p => p.1.set i p.2))).col c
          = ((df.rows.zip vals).map (fun p => p.1.set i p.2)).map
              (fun r => r.getD j Cell.null) :=
        col_eq_of_idx hc
      rw [h1, col_eq_of_idx hc]
      have hji : j ≠ i := by
        intro hj
        exact hne (by rw [← idx?_getD hc, hj, idx?_getD hi])
      exact zip_set_map_getD Cell.null j i (Ne.symm hji) df.rows vals h

/-! ### Data Cleaner lemmas -/

theorem addDateClean_col_ne {df : DF} (hwf : Wf df) {c : String} (hc : c ≠ "date_clean") :
    (addDateClean df).col c = df.col c := by
  unfold addDateClean
  by_cases h : "ngay_tiep_nhan" ∈ df.header
  · rw [if_pos h]
    exact setCol_col_ne hc hwf (by rw [List.length_map, col_length h])
  · rw [if_neg h]

theorem addRevenue_col_ne {df : DF} (hwf : Wf df) {c : String} (hc : c ≠ "revenue") :
    (addRevenue df).col c = df.col c := by
  unfold addRevenue
  by_cases h : "tongdoanhthu" ∈ df.header
  · rw [if_pos h]
    exact setCol_col_ne hc hwf (by rw [List.length_map, col_length h])
  · rw [if_neg h]

theorem addDateClean_wf {df : DF} (hwf : Wf df) : Wf (addDateClean df) := by
  unfold addDateClean
  by_cases h : "ngay_tiep_nhan" ∈ df.header
  · rw [if_pos h]
    exact setCol_wf hwf
  · rw [if_neg h]
    exact hwf

theorem mem_addDateClean_header {df : DF} {c : String} :
    c ∈ (addDateClean df).header
      ↔ c ∈ df.header ∨ (c = "date_clean" ∧ "ngay_tiep_nhan" ∈ df.header) := by
  unfold addDateClean
  by_cases h : "ngay_tiep_nhan" ∈ df.header
  · rw [if_pos h, mem_setCol_header]
    simp [h]
  · rw [if_neg h]
    simp [h]

theorem mem_addRevenue_header {df : DF} {c : String} :
    c ∈ (addRevenue df).header
      ↔ c ∈ df.header ∨ (c = "revenue" ∧ "tongdoanhthu" ∈ df.header) := by
  unfold addRevenue
  by_cases h : "tongdoanhthu" ∈ df.header
  · rw [if_pos h, mem_setCol_header]
    simp [h]
  · rw [if_neg h]
    simp [h]

/-- On a non-empty frame holding both raw source columns, `process_data`
computes `date_clean` as the cellwise date coercion of `ngay_tiep_nhan`
and `revenue` as the cellwise numeric coercion of `tongdoanhthu`. -/
theorem process_data_cols (df : DF) (hwf : Wf df)
    (hd : "ngay_tiep_nhan" ∈ df.header) (ht : "tongdoanhthu" ∈ df.header)
    (hrows : df.rows ≠ []) :
    (process_data df).col "date_clean" = (df.col "ngay_tiep_nhan").map dateCleanCell
    ∧ (process_data df).col "revenue" = (df.col "tongdoanhthu").map revenueCell := by
  have hheader : df.header ≠ [] := by
    rintro h
    rw [h] at hd
    cases hd
  have hpd : process_data df = addRevenue (addDateClean df) := by
    unfold process_data
    rw [if_neg (by rintro (h | h) <;> contradiction)]
  have hlen1 : ((df.col "ngay_tiep_nhan").map dateCleanCell).length = df.rows.length := by
    rw [List.length_map, col_length hd]
  have hd1eq : addDateClean df = setCol df "date_clean" ((df.col "ngay_tiep_nhan").map dateCleanCell) := by
    unfold addDateClean
    rw [if_pos hd]
  have hwf1 : Wf (addDateClean df) := addDateClean_wf hwf
  have htd1 : "tongdoanhthu" ∈ (addDateClean df).header :=
    mem_addDateClean_header.mpr (Or.inl ht)
  have hcolT : (addDateClean df).col "tongdoanhthu" = df.col "tongdoanhthu" :=
    addDateClean_col_ne hwf (by decide)
  have hcolD : (addDateClean df).col "date_clean"
      = (df.col "ngay_tiep_nhan").map dateCleanCell := by
    rw [hd1eq]
    exact setCol_col_self hwf hlen1
  have hlen2 : (((addDateClean df).col "tongdoanhthu").map revenueCell).length
      = (addDateClean df).rows.length := by
    rw [List.length_map, col_length htd1]
  have hrev : addRevenue (addDateClean df)
      = setCol (addDateClean df) "revenue"
          (((addDateClean df).col "tongdoanhthu").map revenueCell) := by
    unfold addRevenue
    rw [if_pos htd1]
  constructor
  · rw [hpd, hrev, setCol_col_ne (by decide) hwf1 hlen2, hcolD]
  · rw [hpd, hrev, setCol_col_self hwf1 hlen2, hcolT]

theorem col_rows_nil {df : DF} (h : df.rows = []) (c : String) : df.col c = [] := by
  unfold DF.col
  cases hi : idx? df.header c with
  | none => rfl
  | some i =>
    rw [h]
    rfl

/-- Every column other than the two derived names is untouched by the
cleaner. -/
theorem process_data_col_other (df : DF) (hwf : Wf df) (c : String)
    (hcd : c ≠ "date_clean") (hcr : c ≠ "revenue") :
    (process_data df).col c = df.col c := by
  by_cases hemp : df.rows = [] ∨ df.header = []
  · unfold process_data
    rw [if_pos hemp]
  · have hpd : process_data df = addRevenue (addDateClean df) := by
      unfold process_data
      rw [if_neg hemp]
    rw [hpd, addRevenue_col_ne (addDateClean_wf hwf) hcr, addDateClean_col_ne hwf hcd]

/-- When the raw date column exists, the output `date_clean` column is
exactly the cellwise date coercion of it (added, or overwriting a
pre-existing column of that name). -/
theorem process_data_col_date (df : DF) (hwf : Wf df)
    (hd : "ngay_tiep_nhan" ∈ df.header) :
    (process_data df).col "date_clean" = (df.col "ngay_tiep_nhan").map dateCleanCell := by
  by_cases hemp : df.rows = [] ∨ df.header = []
  · have hpd : process_data df = df := by
      unfold process_data
      rw [if_pos hemp]
    have hrows : df.rows = [] := by
      rcases hemp with h | h
      · exact h
      · rw [h] at hd
        cases hd
    rw [hpd, col_rows_nil hrows, col_rows_nil hrows]
    rfl
  · have hpd : process_data df = addRevenue (addDateClean df) := by
      unfold process_data
      rw [if_neg hemp]
    have hlen1 : ((df.col "ngay_tiep_nhan").map dateCleanCell).length = df.rows.length := by
      rw [List.length_map, col_length hd]
    have hd1eq : addDateClean df
        = setCol df "date_clean" ((df.col "ngay_tiep_nhan").map dateCleanCell) := by
      unfold addDateClean
      rw [if_pos hd]
    have hcolD : (addDateClean df).col "date_clean"
        = (df.col "ngay_tiep_nhan").map dateCleanCell := by
      rw [hd1eq]
      exact setCol_col_self hwf hlen1
    rw [hpd]
    by_cases ht : "tongdoanhthu" ∈ (addDateClean df).header
    · have hrev : addRevenue (addDateClean df)
          = setCol (addDateClean df) "revenue"
              (((addDateClean df).col "tongdoanhthu").map revenueCell) := by
        unfold addRevenue
        rw [if_pos ht]
      have hlen2 : (((addDateClean df).col "tongdoanhthu").map revenueCell).length
          = (addDateClean df).rows.length := by
        rw [List.length_map, col_length ht]
      rw [hrev, setCol_col_ne (by decide) (addDateClean_wf hwf) hlen2, hcolD]
    · have hrev : addRevenue (addDateClean df) = addDateClean df := by
        unfold addRevenue
        rw [if_neg ht]
      rw [hrev, hcolD]

/-- When the raw revenue column exists, the output `revenue` column is
exactly the cellwise numeric coercion of it (added, or overwriting a
pre-existing column of that name). -/
theorem process_data_col_rev (df : DF) (hwf : Wf df)
    (ht : "tongdoanhthu" ∈ df.header) :
    (process_data df).col "revenue" = (df.col "tongdoanhthu").map revenueCell := by
  by_cases hemp : df.rows = [] ∨ df.header = []
  · have hpd : process_data df = df := by
      unfold process_data
      rw [if_pos hemp]
    have hrows : df.rows = [] := by
      rcases hemp with h | h
      · exact h
      · rw [h] at ht
        cases ht
    rw [hpd, col_rows_nil hrows, col_rows_nil hrows]
    rfl
  · have hpd : process_data df = addRevenue (addDateClean df) := by
      unfold process_data
      rw [if_neg hemp]
    have htd1 : "tongdoanhthu" ∈ (addDateClean df).header :=
      mem_addDateClean_header.mpr (Or.inl ht)
    have hcolT : (addDateClean df).col "tongdoanhthu" = df.col "tongdoanhthu" :=
      addDateClean_col_ne hwf (by decide)
    have hlen2 : (((addDateClean df).col "tongdoanhthu").map revenueCell).length
        = (addDateClean df).rows.length := by
      rw [List.length_map, col_length htd1]
    have hrev : addRevenue (addDateClean df)
        = setCol (addDateClean df) "revenue"
            (((addDateClean df).col "tongdoanhthu").map revenueCell) := by
      unfold addRevenue
      rw [if_pos htd1]
    rw [hpd, hrev, setCol_col_self (addDateClean_wf hwf) hlen2, hcolT]

/-- When the raw date column is absent, a `date_clean` column (present
or not) is passed through untouched. -/
theorem process_data_col_date_absent (df : DF) (hwf : Wf df)
    (hd : "ngay_tiep_nhan" ∉ df.header) :
    (process_data df).col "date_clean" = df.col "date_clean" := by
  by_cases hemp : df.rows = [] ∨ df.header = []
  · unfold process_data
    rw [if_pos hemp]
  · have hpd : process_data df = addRevenue (addDateClean df) := by
      unfold process_data
      rw [if_neg hemp]
    have hd1 : addDateClean df = df := by
      unfold addDateClean
      rw [if_neg hd]
    rw [hpd, hd1]
    exact addRevenue_col_ne hwf (by decide)

/-- When the raw revenue column is absent, a `revenue` column (present
or not) is passed through untouched. -/
theorem process_data_col_rev_absent (df : DF) (hwf : Wf df)
    (ht : "tongdoanhthu" ∉ df.header) :
    (process_data df).col "revenue" = df.col "revenue" := by
  by_cases hemp : df.rows = [] ∨ df.header = []
  · unfold process_data
    rw [if_pos hemp]
  · have hpd : process_data df = addRevenue (addDateClean df) := by
      unfold process_data
      rw [if_neg hemp]
    have htd1 : "tongdoanhthu" ∉ (addDateClean df).header := by
      rw [mem_addDateClean_header]
      rintro (h | ⟨heq, _⟩)
      · exact ht h
      · exact absurd heq (by decide)
    have hrev : addRevenue (addDateClean df) = addDateClean df := by
      unfold addRevenue
      rw [if_neg htd1]
    rw [hpd, hrev]
    exact addDateClean_col_ne hwf (by decide)

/-- A derived column name is in the output header only if it was
already present or its raw source column exists (date case). -/
theorem process_data_no_date_add (df : DF)
    (hdc : "date_clean" ∉ df.header) (hsrc : "ngay_tiep_nhan" ∉ df.header) :
    "date_clean" ∉ (process_data df).header := by
  by_cases hemp : df.rows = [] ∨ df.header = []
  · have hpd : process_data df = df := by
      unfold process_data
      rw [if_pos hemp]
    rw [hpd]
    exact hdc
  · have hpd : process_data df = addRevenue (addDateClean df) := by
      unfold process_data
      rw [if_neg hemp]
    rw [hpd]
    intro hmem
    rcases mem_addRevenue_header.mp hmem with h | ⟨heq, _⟩
    · rcases mem_addDateClean_header.mp h with h2 | ⟨_, h3⟩
      · exact hdc h2
      · exact hsrc h3
    · exact absurd heq (by decide)

/-- A derived column name is in the output header only if it was
already present or its raw source column exists (revenue case). -/
theorem process_data_no_rev_add (df : DF)
    (hrv : "revenue" ∉ df.header) (hsrc : "tongdoanhthu" ∉ df.header) :
    "revenue" ∉ (process_data df).header := by
  by_cases hemp : df.rows = [] ∨ df.header = []
  · have hpd : process_data df = df := by
      unfold process_data
      rw [if_pos hemp]
    rw [hpd]
    exact hrv
  · have hpd : process_data df = addRevenue (addDateClean df) := by
      unfold process_data
      rw [if_neg hemp]
    rw [hpd]
    intro hmem
    rcases mem_addRevenue_header.mp hmem with h | ⟨_, h3⟩
    · rcases mem_addDateClean_header.mp h with h2 | ⟨heq, _⟩
      · exact hrv h2
      · exact absurd heq (by decide)
    · rcases mem_addDateClean_header.mp h3 with h4 | ⟨heq, _⟩
      · exact hsrc h4
      · exact absurd heq (by decide)

/-- The derived date cell is present exactly when the raw cell parsed. -/
theorem dateCleanCell_ne_null (c : Cell) :
    (dateCleanCell c ≠ Cell.null) ↔ (toDatetime? c).isSome = true := by
  unfold dateCleanCell
  cases h : toDatetime? c with
  | none => simp
  | some t =>
    obtain ⟨y, m, d⟩ := t
    simp

/-- The derived revenue cell is present exactly when the raw cell parsed. -/
theorem revenueCell_ne_null (c : Cell) :
    (revenueCell c ≠ Cell.null) ↔ (parseRevenue c).isSome = true := by
  unfold revenueCell
  cases h : parseRevenue c with
  | none => simp
  | some n => simp

/-! ### Claim theorems -/

/-- C2: for every cleaned table (with the service-group column present,
as it must be for a service-group value to have been selected), selected
year and selected service-group value, the Filter Stage keeps exactly
the rows whose `nam` cell equals the selected year and, when the
selected value is not the "Tất cả" sentinel, whose `tennhomdichvu` cell
equals the selected value: no other row is included and no matching row
is dropped. -/
theorem filterStage_mem_iff (df : DF) (year svc : Cell)
    (hcol : "tennhomdichvu" ∈ df.header) (r : List Cell) :
    r ∈ (filterStage df year svc).rows ↔
      (r ∈ df.rows ∧ cellEq (getCell df.header r "nam") year = true ∧
        (svc ≠ Cell.str "Tất cả" → cellEq (getCell df.header r "tennhomdichvu") svc = true)) := by
  simp only [filterStage]
  by_cases hs : svc = Cell.str "Tất cả"
  · rw [if_neg (by rintro ⟨h1, _⟩; exact h1 hs)]
    simp only [List.mem_filter]
    constructor
    · rintro ⟨h1, h2⟩
      exact ⟨h1, h2, fun h => absurd hs h⟩
    · rintro ⟨h1, h2, _⟩
      exact ⟨h1, h2⟩
  · rw [if_pos ⟨hs, hcol⟩]
    simp only [List.mem_filter]
    constructor
    · rintro ⟨⟨h1, h2⟩, h3⟩
      exact ⟨h1, h2, fun _ => h3⟩
    · rintro ⟨h1, h2, h3⟩
      exact ⟨⟨h1, h2⟩, h3 hs⟩

/-- Witness for C2 on a concrete two-row table. -/
theorem filterStage_mem_iff_witness :
    [Cell.num 2023, Cell.str "A"] ∈
      (filterStage
        { header := ["nam", "tennhomdichvu"],
          rows := [[Cell.num 2023, Cell.str "A"], [Cell.num 2024, Cell.str "B"]] }
        (Cell.num 2023) (Cell.str "A")).rows :=
  (filterStage_mem_iff _ _ _ (by decide) _).mpr
    ⟨by decide, by decide, fun _ => by decide⟩

/-- C5: for every cleaned table and selected year, filtering with the
"Tất cả" (All) sentinel selected produces exactly the year-only filter:
no service-group filter is applied at all. -/
theorem filterStage_all_sentinel (df : DF) (year : Cell) :
    filterStage df year (Cell.str "Tất cả") = yearOnlyFilter df year := by
  simp only [filterStage, yearOnlyFilter]
  rw [if_neg (by rintro ⟨h1, _⟩; exact h1 rfl)]

/-- C6: for every non-empty input table without the year column `nam`,
the render pass reports the missing-column error and stops before any
chart is rendered. -/
theorem renderPass_missing_nam (df : DF) (yp sp : Nat)
    (hrows : df.rows ≠ []) (hhead : df.header ≠ []) (hnam : "nam" ∉ df.header) :
    renderPass df yp sp = Outcome.missingNamError := by
  unfold renderPass
  rw [if_neg (by rintro (h | h) <;> contradiction), if_pos hnam]

/-- Witness for C6. -/
theorem renderPass_missing_nam_witness :
    renderPass { header := ["thang"], rows := [[Cell.num 1]] } 0 0
      = Outcome.missingNamError :=
  renderPass_missing_nam _ 0 0 (by decide) (by decide) (by decide)

/-- C7: whenever the filtered subset of the selections made in the
sidebar is empty, the render pass emits the empty-result warning and
stops early; no error and no chart rendering happens. -/
theorem renderPass_empty_filter (df : DF) (yp sp : Nat)
    (hrows : df.rows ≠ []) (hhead : df.header ≠ [])
    (hnam : "nam" ∈ df.header) (hyl : yearList df ≠ [])
    (hsvc : "tennhomdichvu" ∈ df.header)
    (hempty : (filterStage df (selectedYear df yp) (selectedService df sp)).rows = []) :
    renderPass df yp sp = Outcome.emptyWarning := by
  unfold renderPass
  rw [if_neg (by rintro (h | h) <;> contradiction), if_neg (fun h => h hnam),
    if_neg hyl, if_neg (fun h => h hsvc), if_pos hempty]

/-- Witness for C7: year 2023 with service group "B" matches no row. -/
theorem renderPass_empty_filter_witness :
    renderPass
      { header := ["nam", "tennhomdichvu"],
        rows := [[Cell.num 2023, Cell.str "A"], [Cell.num 2024, Cell.str "B"]] } 0 2
      = Outcome.emptyWarning :=
  renderPass_empty_filter _ 0 2 (by decide) (by decide) (by decide) (by decide)
    (by decide) (by decide)

/-- C10: for every non-empty table whose `nam` column exists but holds
only missing values, the render pass reports the no-years error and
stops before showing filters or charts. -/
theorem renderPass_no_years (df : DF) (yp sp : Nat)
    (hrows : df.rows ≠ []) (hhead : df.header ≠ [])
    (hnam : "nam" ∈ df.header) (hall : ∀ c ∈ df.col "nam", c = Cell.null) :
    renderPass df yp sp = Outcome.noYearsError := by
  have hyl : yearList df = [] := by
    unfold yearList
    have hfil : (df.col "nam").filter (fun c => !(c == Cell.null)) = [] := by
      rw [List.filter_eq_nil_iff]
      intro c hc
      rw [hall c hc]
      decide
    rw [hfil]
    rfl
  unfold renderPass
  rw [if_neg (by rintro (h | h) <;> contradiction), if_neg (fun h => h hnam), if_pos hyl]

/-- Witness for C10. -/
theorem renderPass_no_years_witness :
    renderPass { header := ["nam"], rows := [[Cell.null]] } 0 0 = Outcome.noYearsError :=
  renderPass_no_years _ 0 0 (by decide) (by decide) (by decide) (by decide)

/-- C1 (code bug): a table that has the year column `nam` but lacks the
service-group column `tennhomdichvu` makes the render pass hit an
unhandled `NameError` — line 230 reads `selected_service`, which the
guard on line 217 never assigned — instead of completing with a warning
or placeholder as the spec requires. -/
theorem renderPass_missing_service_crashes :
    renderPass { header := ["nam"], rows := [[Cell.num 2023]] } 0 0
      = Outcome.nameErrorCrash := by
  decide

/-- C8: a complete path-by-path characterisation of the loader.  On the
two success paths (readable upload; no upload but a readable local file)
it returns the cleaned parse result; on each of the three failure paths
(unreadable upload; no upload and an unreadable local file; no upload
and no local file) it shows the corresponding error/warning message and
returns the empty frame instead of an exception propagating.  The last
conjunct records that exactly those three messages are the
error/warning reports. -/
theorem load_data_spec (u l : Option CsvSrc) :
    (∀ d, u = some (CsvSrc.ok d) →
      load_data u l = { df := process_data d, msgs := [Msg.uploadSuccess] })
    ∧ (u = some CsvSrc.bad →
      load_data u l = { df := emptyDF, msgs := [Msg.uploadError] })
    ∧ (∀ d, u = none → l = some (CsvSrc.ok d) →
      load_data u l = { df := process_data d, msgs := [Msg.localInfo] })
    ∧ (u = none → l = some CsvSrc.bad →
      load_data u l = { df := emptyDF, msgs := [Msg.localError] })
    ∧ (u = none → l = none →
      load_data u l = { df := emptyDF, msgs := [Msg.localMissingWarning] })
    ∧ (∀ m : Msg, m.isFailure = true
        ↔ (m = Msg.uploadError ∨ m = Msg.localMissingWarning ∨ m = Msg.localError)) := by
  refine ⟨?_, ?_, ?_, ?_, ?_, ?_⟩
  · rintro d rfl
    rfl
  · rintro rfl
    rfl
  · rintro d rfl rfl
    rfl
  · rintro rfl rfl
    rfl
  · rintro rfl rfl
    rfl
  · intro m
    cases m <;> simp [Msg.isFailure]

/-- Witness for C8: an unreadable upload degrades to the empty frame
with the upload-error report. -/
theorem load_data_spec_witness :
    load_data (some CsvSrc.bad) none = { df := emptyDF, msgs := [Msg.uploadError] } :=
  (load_data_spec (some CsvSrc.bad) none).2.1 rfl

/-- C3: every raw revenue string made of decimal digits with comma
and/or space thousands separators (at least one digit) parses, after
separator stripping, to exactly the integer its digits denote. -/
theorem toNumeric_thousands (s : List Char)
    (h1 : ∀ c ∈ s, c.isDigit = true ∨ c = ',' ∨ c = ' ')
    (h2 : ∃ c ∈ s, c.isDigit = true) :
    toNumeric? (stripSeps s) = some ((digitsToNat (s.filter Char.isDigit) : Int)) := by
  have hstrip : stripSeps s = s.filter Char.isDigit := by
    unfold stripSeps
    apply List.filter_congr
    intro a ha
    rcases h1 a ha with hd | rfl | rfl
    · have hc1 : a ≠ ',' := by
        rintro rfl
        exact absurd hd (by decide)
      have hc2 : a ≠ ' ' := by
        rintro rfl
        exact absurd hd (by decide)
      simp [hd, hc1, hc2]
    · decide
    · decide
  rw [hstrip]
  obtain ⟨c0, hc0, hd0⟩ := h2
  have hne : s.filter Char.isDigit ≠ [] := by
    intro hnil
    have hmem : c0 ∈ s.filter Char.isDigit := List.mem_filter.mpr ⟨hc0, hd0⟩
    rw [hnil] at hmem
    cases hmem
  have hall : (s.filter Char.isDigit).all Char.isDigit = true := by
    rw [List.all_eq_true]
    intro c hc
    exact (List.mem_filter.mp hc).2
  have hhead : (s.filter Char.isDigit).headD ' ' ≠ '-' := by
    cases hF : s.filter Char.isDigit with
    | nil => exact absurd hF hne
    | cons c cs =>
      have hcd : c.isDigit = true := by
        have hmem : c ∈ s.filter Char.isDigit := by
          rw [hF]
          exact List.mem_cons_self c cs
        exact (List.mem_filter.mp hmem).2
      simp only [List.headD_cons]
      rintro rfl
      exact absurd hcd (by decide)
  unfold toNumeric?
  rw [if_neg hne, if_neg hhead, if_pos hall]

/-- Witness for C3: the example from the spec, "1,500,000" → 1500000. -/
theorem toNumeric_thousands_witness :
    toNumeric? (stripSeps ("1,500,000".data)) = some (1500000 : Int) := by
  have h := toNumeric_thousands ("1,500,000".data) (by decide) (by decide)
  exact h.trans (by decide)

/-- C4: in every cleaned row, the derived `date_clean` cell is non-null
exactly when the raw date cell parsed, and the derived `revenue` cell is
non-null exactly when the raw revenue text parsed as a number after
separator stripping; parse failures yield a missing value, never an
error. -/
theorem process_data_derived_iff (df : DF) (hwf : Wf df)
    (hd : "ngay_tiep_nhan" ∈ df.header) (ht : "tongdoanhthu" ∈ df.header)
    (hrows : df.rows ≠ []) (i : Nat) (hi : i < df.rows.length) :
    ((((process_data df).col "date_clean").getD i Cell.null ≠ Cell.null)
      ↔ (toDatetime? ((df.col "ngay_tiep_nhan").getD i Cell.null)).isSome = true)
    ∧ ((((process_data df).col "revenue").getD i Cell.null ≠ Cell.null)
      ↔ (parseRevenue ((df.col "tongdoanhthu").getD i Cell.null)).isSome = true) := by
  obtain ⟨h1, h2⟩ := process_data_cols df hwf hd ht hrows
  constructor
  · rw [h1,
      getD_map_lt dateCleanCell _ i Cell.null Cell.null (by rw [col_length hd]; exact hi)]
    exact dateCleanCell_ne_null _
  · rw [h2,
      getD_map_lt revenueCell _ i Cell.null Cell.null (by rw [col_length ht]; exact hi)]
    exact revenueCell_ne_null _

/-- Witness for C4 on a one-row table: a parseable date and a parseable
separator-formatted revenue both yield present derived cells. -/
theorem process_data_derived_iff_witness :
    ((((process_data { header := ["ngay_tiep_nhan", "tongdoanhthu"],
                       rows := [[Cell.str "2023-05-10", Cell.str "1,500,000"]] }).col
        "date_clean").getD 0 Cell.null ≠ Cell.null)
      ↔ (toDatetime? ((({ header := ["ngay_tiep_nhan", "tongdoanhthu"],
                          rows := [[Cell.str "2023-05-10", Cell.str "1,500,000"]] } : DF).col
          "ngay_tiep_nhan").getD 0 Cell.null)).isSome = true)
    ∧ ((((process_data { header := ["ngay_tiep_nhan", "tongdoanhthu"],
                         rows := [[Cell.str "2023-05-10", Cell.str "1,500,000"]] }).col
        "revenue").getD 0 Cell.null ≠ Cell.null)
      ↔ (parseRevenue ((({ header := ["ngay_tiep_nhan", "tongdoanhthu"],
                           rows := [[Cell.str "2023-05-10", Cell.str "1,500,000"]] } : DF).col
          "tongdoanhthu").getD 0 Cell.null)).isSome = true) :=
  process_data_derived_iff _ (by decide) (by decide) (by decide) (by decide) 0 (by decide)

/-- C9 counterexample: a table that already holds a `revenue` column
next to `tongdoanhthu` has that pre-existing column overwritten by the
cleaner, so not every pre-existing column is left unchanged. -/
theorem process_data_overwrites_revenue :
    "revenue" ∈ ({ header := ["tongdoanhthu", "revenue"],
                   rows := [[Cell.str "5", Cell.str "old"]] } : DF).header
    ∧ (process_data { header := ["tongdoanhthu", "revenue"],
                      rows := [[Cell.str "5", Cell.str "old"]] }).col "revenue"
      ≠ ({ header := ["tongdoanhthu", "revenue"],
           rows := [[Cell.str "5", Cell.str "old"]] } : DF).col "revenue" := by
  decide

/-- C9 as amended: the cleaner leaves every pre-existing column other
than ones named `date_clean` or `revenue` unchanged; a derived column
name appears in the output only when it was already present or its raw
source column exists; when the raw source column exists the output
`date_clean` / `revenue` column holds exactly the derived values (so a
pre-existing column of that name is overwritten by them); and when the
raw source column is absent the `date_clean` / `revenue` column is
passed through untouched. -/
theorem process_data_frame_effect (df : DF) (hwf : Wf df) :
    (∀ c, c ∈ df.header → c ≠ "date_clean" → c ≠ "revenue" →
      (process_data df).col c = df.col c)
    ∧ ("date_clean" ∉ df.header → "ngay_tiep_nhan" ∉ df.header →
      "date_clean" ∉ (process_data df).header)
    ∧ ("revenue" ∉ df.header → "tongdoanhthu" ∉ df.header →
      "revenue" ∉ (process_data df).header)
    ∧ ("ngay_tiep_nhan" ∈ df.header →
      (process_data df).col "date_clean" = (df.col "ngay_tiep_nhan").map dateCleanCell)
    ∧ ("tongdoanhthu" ∈ df.header →
      (process_data df).col "revenue" = (df.col "tongdoanhthu").map revenueCell)
    ∧ ("ngay_tiep_nhan" ∉ df.header →
      (process_data df).col "date_clean" = df.col "date_clean")
    ∧ ("tongdoanhthu" ∉ df.header →
      (process_data df).col "revenue" = df.col "revenue") :=
  ⟨fun c _ hcd hcr => process_data_col_other df hwf c hcd hcr,
   process_data_no_date_add df,
   process_data_no_rev_add df,
   process_data_col_date df hwf,
   process_data_col_rev df hwf,
   process_data_col_date_absent df hwf,
   process_data_col_rev_absent df hwf⟩

/-- Witness for the amended C9 on the clash table of the counterexample:
the pre-existing `revenue` column ends up holding exactly the derived
values. -/
theorem process_data_frame_effect_witness :
    (process_data { header := ["tongdoanhthu", "revenue"],
                    rows := [[Cell.str "5", Cell.str "old"]] }).col "revenue"
      = (({ header := ["tongdoanhthu", "revenue"],
            rows := [[Cell.str "5", Cell.str "old"]] } : DF).col
          "tongdoanhthu").map revenueCell :=
  (process_data_frame_effect _ (by decide)).2.2.2.2.1 (by decide)

end HospitalDashboard
